import Mathlib

/-!
Verification of the ezboot interactive boot-order tool (src/main.rs).

The development shallowly embeds the core of the program: the data model
(boot entries, the reorder model with its two cursors and focus), the
privileged-command executor (`execute_sudo_command`, `execute_set_boot_order`,
`execute_boot_once`), the startup initialization (stable sort of entries by
the fetched boot order), and the interactive state machine driven by key
events and one-second countdown ticks (the body of `main`'s event loop).

External process execution is abstracted by a `ProcOutput` oracle (exit code
and captured stderr text); the commands the program spawns and what it writes
to their stdin are recorded as `Invocation` values in the step output.
A step returns `Option`: `none` models the one panicking array index in the
source (`entries[selected_boot_once]` in the Main-state Enter handler).
-/

namespace EzBoot

/-- One UEFI boot entry: 4-hex-digit id and display name (src/main.rs `BootEntry`). -/
structure BootEntry where
  id : String
  name : String
deriving DecidableEq, Repr

/-- Which panel is focused (src/main.rs `Focus`). -/
inductive Focus where
  | priority
  | bootOnce
deriving DecidableEq, Repr

/-- Pending privileged action (src/main.rs `Action`). -/
inductive Action where
  | none
  | setOrder (ids : List String)
  | bootOnce (id : String)
deriving DecidableEq, Repr

/-- UI state of the interactive state machine (src/main.rs `UIState`).
The countdown seconds are a `u8` in the source; values used are 1..=5. -/
inductive UIState where
  | main
  | askPassword
  | passwordError
  | confirmReboot
  | countdownReboot (seconds : Nat)
  | quitConfirm
  | help
  | errorMessage (text : String)
deriving DecidableEq, Repr

/-- Abstraction of a finished child process as observed by the program:
`code` is `output.status.code()` (none when terminated by a signal) and
`stderr` the captured error-stream text. -/
structure ProcOutput where
  code : Option Int
  stderr : String
deriving DecidableEq, Repr

/-- `output.status.success()`: exit code is zero. -/
def statusSuccess (o : ProcOutput) : Bool :=
  o.code = some 0

/-- `pat` is a prefix of `l` (character lists). -/
def listPrefixEq : List Char → List Char → Bool
  | [], _ => true
  | _ :: _, [] => false
  | a :: pa, b :: hb => a = b && listPrefixEq pa hb

/-- `pat` occurs as a contiguous sublist of the haystack. -/
def listContainsSub (pat : List Char) : List Char → Bool
  | [] => listPrefixEq pat []
  | h :: t => listPrefixEq pat (h :: t) || listContainsSub pat t

/-- Rust `str::contains(pat)`: substring test, case-sensitive. -/
def strContains (hay pat : String) : Bool :=
  listContainsSub pat.data hay.data

/-- Rust `str::trim`: remove leading and trailing whitespace. -/
def strTrim (s : String) : String :=
  String.mk
    (((s.data.dropWhile Char.isWhitespace).reverse.dropWhile
        Char.isWhitespace).reverse)

/-- A spawned process invocation: its argument vector, the bytes written to
its stdin before it is awaited (none = stdin attached to the null device,
nothing written), and whether the stdin channel is closed before the exit
status is awaited. -/
structure Invocation where
  argv : List String
  stdinData : Option String
  stdinClosedBeforeWait : Bool
deriving DecidableEq, Repr

/-- The invocation built by `execute_sudo_command`: `sudo -S <args>` with the
password followed by a newline written to stdin, flushed, and the handle
dropped (closing the channel) before `wait_with_output`. -/
def sudo_invocation (args : List String) (password : String) : Invocation :=
  { argv := "sudo" :: "-S" :: args
    stdinData := some (password ++ "\n")
    stdinClosedBeforeWait := true }

/-- The invocation spawned at countdown zero: `sudo reboot` with stdin
attached to `Stdio::null()` — no secret is written. -/
def reboot_invocation : Invocation :=
  { argv := ["sudo", "reboot"]
    stdinData := Option.none
    stdinClosedBeforeWait := true }

/-- src/main.rs `execute_sudo_command`, with process execution abstracted by
the `ProcOutput` oracle. Returns the `(succeeded, message)` classification
together with the invocation issued. -/
def execute_sudo_command (args : List String) (password : String)
    (out : ProcOutput) : (Bool × String) × Invocation :=
  let inv := sudo_invocation args password
  let stderr_text := out.stderr
  if strContains stderr_text "Sorry" || strContains stderr_text "try again" then
    ((false, "Incorrect password"), inv)
  else if !statusSuccess out then
    let error_msg :=
      if strTrim stderr_text ≠ "" then
        strTrim stderr_text
      else
        "Command failed with exit code: " ++ toString (out.code.getD (-1))
    ((false, error_msg), inv)
  else
    ((true, ""), inv)

/-- src/main.rs `execute_set_boot_order`: join the ids with commas, run
`sudo -S efibootmgr -o <order>`, and map the classification to the next
UI state. -/
def execute_set_boot_order (order_ids : List String) (password : String)
    (out : ProcOutput) : UIState × Invocation :=
  let order := String.intercalate "," order_ids
  let result := execute_sudo_command ["efibootmgr", "-o", order] password out
  let st :=
    if result.1.1 then
      UIState.confirmReboot
    else if result.1.2 = "Incorrect password" then
      UIState.passwordError
    else
      UIState.errorMessage result.1.2
  (st, result.2)

/-- src/main.rs `execute_boot_once`: run `sudo -S efibootmgr -n <id>` and map
the classification to the next UI state. -/
def execute_boot_once (id : String) (password : String)
    (out : ProcOutput) : UIState × Invocation :=
  let result := execute_sudo_command ["efibootmgr", "-n", id] password out
  let st :=
    if result.1.1 then
      UIState.countdownReboot 5
    else if result.1.2 = "Incorrect password" then
      UIState.passwordError
    else
      UIState.errorMessage result.1.2
  (st, result.2)

/-- Key codes the event loop distinguishes; `other` stands for every other
`crossterm` key code (all fall into `_ => {}` arms in the source). -/
inductive KeyCode where
  | char (c : Char)
  | up
  | down
  | left
  | right
  | tab
  | enter
  | esc
  | backspace
  | other
deriving DecidableEq, Repr

/-- An event loop iteration either handles one key event or, in the countdown
state, observes that one second has elapsed since the last tick. -/
inductive Event where
  | key (k : KeyCode)
  | tick
deriving DecidableEq, Repr

/-- The mutable program state owned by `main`'s event loop. -/
structure AppState where
  entries : List BootEntry
  selected_priority : Nat
  selected_boot_once : Nat
  focus : Focus
  ui : UIState
  password : String
  show_password : Bool
  pending_action : Action
  reboot_yes : Bool
  quit_yes : Bool
  original_order : List String
deriving DecidableEq, Repr

/-- Result of one loop iteration: the successor state, whether the loop
`break`s, and the process invocations issued during the iteration. -/
structure StepOut where
  state : AppState
  halted : Bool
  invocations : List Invocation
deriving DecidableEq, Repr

/-- A non-halting step that issues no invocation. -/
def contOut (s : AppState) : Option StepOut :=
  some ⟨s, false, []⟩

/-- Rust `Vec::swap` at two in-bounds indices (both call sites in the source
guard the indices; out-of-bounds would panic, never reached here). -/
def swapList {α : Type} (l : List α) (i j : Nat) : List α :=
  match l[i]?, l[j]? with
  | some a, some b => (l.set i b).set j a
  | _, _ => l

/-- Rust `String::pop`: drop the last character, if any. -/
def stringPop (s : String) : String :=
  String.mk s.data.dropLast

/-- `Up` / `'k'` in the Main state: move the focused cursor up unless at 0. -/
def mainUpKey (s : AppState) : AppState :=
  match s.focus with
  | .priority =>
      if s.selected_priority > 0 then
        { s with selected_priority := s.selected_priority - 1 }
      else s
  | .bootOnce =>
      if s.selected_boot_once > 0 then
        { s with selected_boot_once := s.selected_boot_once - 1 }
      else s

/-- `Down` / `'j'` in the Main state: move the focused cursor down unless at
the last entry. -/
def mainDownKey (s : AppState) : AppState :=
  match s.focus with
  | .priority =>
      if s.selected_priority + 1 < s.entries.length then
        { s with selected_priority := s.selected_priority + 1 }
      else s
  | .bootOnce =>
      if s.selected_boot_once + 1 < s.entries.length then
        { s with selected_boot_once := s.selected_boot_once + 1 }
      else s

/-- `'u'` in the Main state with the Priority panel focused: swap the selected
entry with its predecessor and move the cursor with it. -/
def mainMoveUp (s : AppState) : AppState :=
  if s.selected_priority > 0 then
    { s with
      entries := swapList s.entries s.selected_priority (s.selected_priority - 1)
      selected_priority := s.selected_priority - 1 }
  else s

/-- `'d'` in the Main state with the Priority panel focused: swap the selected
entry with its successor and move the cursor with it. -/
def mainMoveDown (s : AppState) : AppState :=
  if s.selected_priority + 1 < s.entries.length then
    { s with
      entries := swapList s.entries s.selected_priority (s.selected_priority + 1)
      selected_priority := s.selected_priority + 1 }
  else s

/-- `Enter` in the Main state. With the Priority panel focused, the pending
action is `SetOrder` over all entry ids; with the BootOnce panel focused the
source indexes `entries[selected_boot_once]` with no bounds guard — `none`
models that panic. The secret buffer is cleared and the state becomes
AskPassword. -/
def mainEnter (s : AppState) : Option AppState :=
  match s.focus with
  | .priority =>
      let ids := s.entries.map (fun e => e.id)
      some { s with pending_action := Action.setOrder ids, password := "",
                    ui := .askPassword }
  | .bootOnce =>
      match s.entries[s.selected_boot_once]? with
      | some e =>
          some { s with pending_action := Action.bootOnce e.id, password := "",
                        ui := .askPassword }
      | none => Option.none

/-- The Main-state key dispatch (arm order and guards as in the source). -/
def mainKey (s : AppState) (k : KeyCode) : Option StepOut :=
  match k with
  | .char c =>
      if c = 'q' then
        let current_order := s.entries.map (fun e => e.id)
        if current_order ≠ s.original_order then
          contOut { s with ui := .quitConfirm, quit_yes := false }
        else
          some ⟨s, true, []⟩
      else if c = 'k' then contOut (mainUpKey s)
      else if c = 'j' then contOut (mainDownKey s)
      else if c = 'u' then
        contOut (if s.focus = Focus.priority then mainMoveUp s else s)
      else if c = 'd' then
        contOut (if s.focus = Focus.priority then mainMoveDown s else s)
      else if c = '?' ∨ c = 'h' then contOut { s with ui := .help }
      else contOut s
  | .tab =>
      contOut { s with focus := match s.focus with
                                | .priority => Focus.bootOnce
                                | .bootOnce => Focus.priority }
  | .up => contOut (mainUpKey s)
  | .down => contOut (mainDownKey s)
  | .enter => (mainEnter s).map (fun s1 => ⟨s1, false, []⟩)
  | _ => contOut s

/-- Whether the loop clears the secret buffer after a submission:
`matches!(state, UIState::PasswordError | UIState::ErrorMessage(_))`. -/
def isPwErrOrErrMsg : UIState → Bool
  | .passwordError => true
  | .errorMessage _ => true
  | _ => false

/-- The AskPassword-state key dispatch. `Enter` invokes the executor per the
pending action (the classification driven by the `oracle` process output) and
clears the buffer exactly when the resulting state is PasswordError or
ErrorMessage. -/
def askPasswordKey (oracle : ProcOutput) (s : AppState) (k : KeyCode) :
    Option StepOut :=
  match k with
  | .esc =>
      contOut { s with password := "", pending_action := Action.none, ui := .main }
  | .tab => contOut { s with show_password := !s.show_password }
  | .backspace => contOut { s with password := stringPop s.password }
  | .enter =>
      let r : UIState × List Invocation :=
        match s.pending_action with
        | .setOrder order_ids =>
            let e := execute_set_boot_order order_ids s.password oracle
            (e.1, [e.2])
        | .bootOnce id =>
            let e := execute_boot_once id s.password oracle
            (e.1, [e.2])
        | .none => (UIState.main, [])
      let s1 := { s with ui := r.1 }
      let s2 := if isPwErrOrErrMsg s1.ui then { s1 with password := "" } else s1
      some ⟨s2, false, r.2⟩
  | .char c => contOut { s with password := s.password.push c }
  | _ => contOut s

/-- The ConfirmReboot-state key dispatch. -/
def confirmRebootKey (s : AppState) (k : KeyCode) : Option StepOut :=
  match k with
  | .esc => contOut { s with ui := .main }
  | .left | .right | .tab => contOut { s with reboot_yes := !s.reboot_yes }
  | .enter =>
      if s.reboot_yes then contOut { s with ui := .countdownReboot 5 }
      else contOut { s with ui := .main }
  | _ => contOut s

/-- The CountdownReboot-state key dispatch: only Esc reacts. -/
def countdownKey (s : AppState) (k : KeyCode) : Option StepOut :=
  match k with
  | .esc => contOut { s with ui := .main }
  | _ => contOut s

/-- The QuitConfirm-state key dispatch. -/
def quitConfirmKey (s : AppState) (k : KeyCode) : Option StepOut :=
  match k with
  | .esc => contOut { s with ui := .main }
  | .left | .right | .tab => contOut { s with quit_yes := !s.quit_yes }
  | .enter =>
      if s.quit_yes then some ⟨s, true, []⟩
      else contOut { s with ui := .main }
  | _ => contOut s

/-- One key event handled by the state machine (the `match state` in the
source's event loop). -/
def stepKey (oracle : ProcOutput) (s : AppState) (k : KeyCode) : Option StepOut :=
  match s.ui with
  | .main => mainKey s k
  | .askPassword => askPasswordKey oracle s k
  | .passwordError => contOut { s with ui := .askPassword }
  | .confirmReboot => confirmRebootKey s k
  | .countdownReboot _ => countdownKey s k
  | .quitConfirm => quitConfirmKey s k
  | .help => contOut { s with ui := .main }
  | .errorMessage _ => contOut { s with ui := .askPassword }

/-- One elapsed-second tick: only the countdown state reacts. At `seconds > 1`
the countdown advances; otherwise the loop spawns `sudo reboot` (stdin null),
waits on it discarding the status, and `break`s. -/
def stepTick (s : AppState) : StepOut :=
  match s.ui with
  | .countdownReboot seconds =>
      if seconds > 1 then
        ⟨{ s with ui := .countdownReboot (seconds - 1) }, false, []⟩
      else
        ⟨s, true, [reboot_invocation]⟩
  | _ => ⟨s, false, []⟩

/-- One event-loop iteration. -/
def step (oracle : ProcOutput) (s : AppState) : Event → Option StepOut
  | .key k => stepKey oracle s k
  | .tick => some (stepTick s)

/-- Run a sequence of events; stops at a `break` (returning the final state)
and propagates the panic case. -/
def runEvents (oracle : ProcOutput) : List Event → AppState → Option AppState
  | [], s => some s
  | e :: es, s =>
      match step oracle s e with
      | some r => if r.halted then some r.state else runEvents oracle es r.state
      | none => Option.none

/-- The key the startup sort uses:
`order.iter().position(|id| id == &e.id).unwrap_or(usize::MAX)`. -/
def USIZE_MAX : Nat := 2 ^ 64 - 1

/-- Sort key of one entry with respect to the fetched boot order. -/
def order_key (order : List String) (e : BootEntry) : Nat :=
  match order.findIdx? (fun id => id = e.id) with
  | some i => i
  | none => USIZE_MAX

/-- Comparison relation of the startup sort: keys compared with `≤`. -/
def keyLe (order : List String) (a b : BootEntry) : Prop :=
  order_key order a ≤ order_key order b

instance (order : List String) : DecidableRel (keyLe order) :=
  fun a b => Nat.decLe (order_key order a) (order_key order b)

instance (order : List String) : IsTotal BootEntry (keyLe order) :=
  ⟨fun a b => Nat.le_total (order_key order a) (order_key order b)⟩

instance (order : List String) : IsTrans BootEntry (keyLe order) :=
  ⟨fun _ _ _ hab hbc => Nat.le_trans hab hbc⟩

/-- The startup initialization of the entries sequence: when the fetched
order is non-empty, stable-sort the entries by their position in the order
(missing ids key as `usize::MAX`). Rust's `sort_by_key` is a stable sort;
`List.insertionSort` with a `≤`-style relation is stable in the same sense
(an earlier element is inserted before later elements of equal key). -/
def init_sorted_entries (entries : List BootEntry) (order : List String) :
    List BootEntry :=
  if order.isEmpty then entries
  else List.insertionSort (keyLe order) entries

/-- `order.first().cloned().unwrap_or_default()`. -/
def current_boot_id_of (order : List String) : String :=
  order.head?.getD ""

/-- The loop state as `main` sets it up just before entering the loop. -/
def initState (entries : List BootEntry) (order : List String) : AppState :=
  let sorted := init_sorted_entries entries order
  { entries := sorted
    selected_priority := 0
    selected_boot_once := 0
    focus := .priority
    ui := .main
    password := ""
    show_password := false
    pending_action := Action.none
    reboot_yes := true
    quit_yes := false
    original_order := sorted.map (fun e => e.id) }

/-- The generic-failure message the executor builds: the trimmed stderr text
when non-empty, else a fallback embedding the exit code. -/
def failMsg (out : ProcOutput) : String :=
  if strTrim out.stderr ≠ "" then strTrim out.stderr
  else "Command failed with exit code: " ++ toString (out.code.getD (-1))

/-- A concrete loop state used to instantiate theorems, parametrized by the
UI state. -/
def sampleState (u : UIState) : AppState :=
  { entries := [⟨"0001", "Linux"⟩, ⟨"0002", "Windows"⟩]
    selected_priority := 0
    selected_boot_once := 0
    focus := Focus.priority
    ui := u
    password := ""
    show_password := false
    pending_action := Action.none
    reboot_yes := true
    quit_yes := false
    original_order := ["0001", "0002"] }

theorem execute_sudo_command_snd (args : List String) (pw : String)
    (out : ProcOutput) :
    (execute_sudo_command args pw out).2 = sudo_invocation args pw := by
  by_cases h1 : (strContains out.stderr "Sorry" ||
      strContains out.stderr "try again") = true
  · simp [execute_sudo_command, h1]
  · by_cases h2 : statusSuccess out = true
    · simp [execute_sudo_command, h1, h2]
    · simp [execute_sudo_command, h1, h2]

theorem execute_sudo_command_phrase (args : List String) (pw : String)
    (out : ProcOutput)
    (h : (strContains out.stderr "Sorry" ||
          strContains out.stderr "try again") = true) :
    (execute_sudo_command args pw out).1 = (false, "Incorrect password") := by
  simp [execute_sudo_command, h]

theorem execute_sudo_command_success (args : List String) (pw : String)
    (out : ProcOutput)
    (h : (strContains out.stderr "Sorry" ||
          strContains out.stderr "try again") = false)
    (hs : statusSuccess out = true) :
    (execute_sudo_command args pw out).1 = (true, "") := by
  simp [execute_sudo_command, h, hs]

theorem execute_sudo_command_fail (args : List String) (pw : String)
    (out : ProcOutput)
    (h : (strContains out.stderr "Sorry" ||
          strContains out.stderr "try again") = false)
    (hs : statusSuccess out = false) :
    (execute_sudo_command args pw out).1 = (false, failMsg out) := by
  simp [execute_sudo_command, failMsg, h, hs]

/-- C2 counterexample: an error stream reading exactly "Incorrect password"
with a non-zero exit status contains no rejection phrase, so per the claim
the resulting state should be `ErrorMessage` with that trimmed text; the code
instead routes it to `PasswordError`, because the generic-failure message
collides with the authentication-failure message string. -/
theorem C2_counterexample :
    strContains "Incorrect password" "Sorry" = false ∧
    strContains "Incorrect password" "try again" = false ∧
    statusSuccess ⟨some 1, "Incorrect password"⟩ = false ∧
    strTrim "Incorrect password" = "Incorrect password" ∧
    (execute_set_boot_order ["0001"] "pw" ⟨some 1, "Incorrect password"⟩).1 =
      UIState.passwordError ∧
    UIState.passwordError ≠ UIState.errorMessage "Incorrect password" := by
  refine ⟨by decide, by decide, by decide, by decide, by decide, by decide⟩

/-- C2 (amended): the executor classification. A rejection phrase ("Sorry" or
"try again" as a case-sensitive substring of the error stream) yields
authentication failure with message "Incorrect password" and state
`PasswordError` regardless of exit status; zero exit status with no phrase
yields success, state `ConfirmReboot` for SetOrder and `CountdownReboot 5`
for BootOnce; otherwise the outcome is a generic failure whose message is the
trimmed error stream, or a fallback embedding the exit code when the trimmed
error stream is empty, and the resulting state is `ErrorMessage` with that
message — except that a generic-failure message equal to the literal string
"Incorrect password" is routed to `PasswordError` instead. -/
theorem C2_classification (out : ProcOutput) (ids : List String)
    (id pw : String) :
    ((strContains out.stderr "Sorry" || strContains out.stderr "try again") = true →
      (execute_sudo_command ["efibootmgr", "-o", String.intercalate "," ids] pw out).1 =
          (false, "Incorrect password") ∧
      (execute_set_boot_order ids pw out).1 = UIState.passwordError ∧
      (execute_boot_once id pw out).1 = UIState.passwordError) ∧
    ((strContains out.stderr "Sorry" || strContains out.stderr "try again") = false →
      statusSuccess out = true →
      (execute_sudo_command ["efibootmgr", "-n", id] pw out).1 = (true, "") ∧
      (execute_set_boot_order ids pw out).1 = UIState.confirmReboot ∧
      (execute_boot_once id pw out).1 = UIState.countdownReboot 5) ∧
    ((strContains out.stderr "Sorry" || strContains out.stderr "try again") = false →
      statusSuccess out = false →
      (execute_sudo_command ["efibootmgr", "-n", id] pw out).1 = (false, failMsg out) ∧
      (execute_set_boot_order ids pw out).1 =
        (if failMsg out = "Incorrect password" then UIState.passwordError
         else UIState.errorMessage (failMsg out)) ∧
      (execute_boot_once id pw out).1 =
        (if failMsg out = "Incorrect password" then UIState.passwordError
         else UIState.errorMessage (failMsg out))) := by
  refine ⟨fun h => ?_, fun h hs => ?_, fun h hs => ?_⟩
  · have ho := execute_sudo_command_phrase
      ["efibootmgr", "-o", String.intercalate "," ids] pw out h
    have hn := execute_sudo_command_phrase ["efibootmgr", "-n", id] pw out h
    refine ⟨ho, ?_, ?_⟩
    · simp [execute_set_boot_order, ho]
    · simp [execute_boot_once, hn]
  · have ho := execute_sudo_command_success
      ["efibootmgr", "-o", String.intercalate "," ids] pw out h hs
    have hn := execute_sudo_command_success ["efibootmgr", "-n", id] pw out h hs
    refine ⟨hn, ?_, ?_⟩
    · simp [execute_set_boot_order, ho]
    · simp [execute_boot_once, hn]
  · have ho := execute_sudo_command_fail
      ["efibootmgr", "-o", String.intercalate "," ids] pw out h hs
    have hn := execute_sudo_command_fail ["efibootmgr", "-n", id] pw out h hs
    refine ⟨hn, ?_, ?_⟩
    · simp only [execute_set_boot_order, ho]
      simp
    · simp only [execute_boot_once, hn]
      simp

/-- C2 witness: instantiating the classification at concrete process
outputs. -/
theorem C2_classification_witness :
    (execute_set_boot_order ["0001"] "pw" ⟨some 1, "Sorry, try again."⟩).1 =
      UIState.passwordError ∧
    (execute_boot_once "0001" "pw" ⟨some 0, ""⟩).1 = UIState.countdownReboot 5 ∧
    (execute_boot_once "0001" "pw" ⟨some 2, "boom"⟩).1 =
      (if failMsg ⟨some 2, "boom"⟩ = "Incorrect password" then UIState.passwordError
       else UIState.errorMessage (failMsg ⟨some 2, "boom"⟩)) :=
  ⟨((C2_classification ⟨some 1, "Sorry, try again."⟩ ["0001"] "0001" "pw").1
      (by rfl)).2.1,
   ((C2_classification ⟨some 0, ""⟩ ["0001"] "0001" "pw").2.1
      (by rfl) (by rfl)).2.2,
   ((C2_classification ⟨some 2, "boom"⟩ ["0001"] "0001" "pw").2.2
      (by rfl) (by rfl)).2.2⟩

/-- C4 counterexample: the reboot invocation issued by the final countdown
tick attaches the null device to the child's stdin and writes nothing — the
secret is not piped, contradicting the claim's "every elevation invocation"
including the countdown-triggered reboot. -/
theorem C4_counterexample :
    stepTick (sampleState (UIState.countdownReboot 1)) =
      ⟨sampleState (UIState.countdownReboot 1), true, [reboot_invocation]⟩ ∧
    reboot_invocation.stdinData = Option.none :=
  ⟨rfl, rfl⟩

/-- C4 (amended): the set-boot-order and one-shot boot-target invocations
write the secret followed by a newline to the child's stdin and close the
channel before awaiting the exit status; the countdown-triggered reboot
invocation instead attaches the null device to stdin and writes no secret
(its channel is trivially closed before the wait). -/
theorem C4_invocations (ids : List String) (id pw : String) (out : ProcOutput) :
    (execute_set_boot_order ids pw out).2.stdinData = some (pw ++ "\n") ∧
    (execute_set_boot_order ids pw out).2.stdinClosedBeforeWait = true ∧
    (execute_boot_once id pw out).2.stdinData = some (pw ++ "\n") ∧
    (execute_boot_once id pw out).2.stdinClosedBeforeWait = true ∧
    reboot_invocation.stdinData = Option.none ∧
    reboot_invocation.stdinClosedBeforeWait = true := by
  have h1 : (execute_set_boot_order ids pw out).2 =
      sudo_invocation ["efibootmgr", "-o", String.intercalate "," ids] pw := by
    simp [execute_set_boot_order, execute_sudo_command_snd]
  have h2 : (execute_boot_once id pw out).2 =
      sudo_invocation ["efibootmgr", "-n", id] pw := by
    simp [execute_boot_once, execute_sudo_command_snd]
  rw [h1, h2]
  exact ⟨rfl, rfl, rfl, rfl, rfl, rfl⟩

/-- C5: in `CountdownReboot n`, a one-second tick with `n > 1` advances to
`CountdownReboot (n-1)` issuing nothing; the tick at `n = 1` issues the
privileged reboot command and halts the loop irrespective of the oracle (the
reboot's exit status is ignored); and the Esc key returns to `Main` with no
invocation issued and the loop still running. -/
theorem C5_countdown (oracle : ProcOutput) (s : AppState) (n : Nat)
    (h : s.ui = UIState.countdownReboot n) :
    (n > 1 → step oracle s Event.tick =
        some ⟨{ s with ui := UIState.countdownReboot (n - 1) }, false, []⟩) ∧
    (n = 1 → step oracle s Event.tick = some ⟨s, true, [reboot_invocation]⟩) ∧
    step oracle s (Event.key KeyCode.esc) =
        some ⟨{ s with ui := UIState.main }, false, []⟩ := by
  refine ⟨fun hn => ?_, fun hn => ?_, ?_⟩
  · simp [step, stepTick, h, hn]
  · subst hn
    simp [step, stepTick, h]
  · simp [step, stepKey, countdownKey, h, contOut]

/-- C5 witness: the countdown scenario at concrete states. -/
theorem C5_countdown_witness :
    step ⟨some 0, ""⟩ (sampleState (UIState.countdownReboot 5)) Event.tick =
      some ⟨{ sampleState (UIState.countdownReboot 5) with
                ui := UIState.countdownReboot 4 }, false, []⟩ ∧
    step ⟨some 0, ""⟩ (sampleState (UIState.countdownReboot 1)) Event.tick =
      some ⟨sampleState (UIState.countdownReboot 1), true, [reboot_invocation]⟩ ∧
    step ⟨some 0, ""⟩ (sampleState (UIState.countdownReboot 3))
        (Event.key KeyCode.esc) =
      some ⟨{ sampleState (UIState.countdownReboot 3) with ui := UIState.main },
            false, []⟩ :=
  ⟨(C5_countdown ⟨some 0, ""⟩ (sampleState (UIState.countdownReboot 5)) 5 rfl).1
      (by decide),
   (C5_countdown ⟨some 0, ""⟩ (sampleState (UIState.countdownReboot 1)) 1 rfl).2.1
      rfl,
   (C5_countdown ⟨some 0, ""⟩ (sampleState (UIState.countdownReboot 3)) 3 rfl).2.2⟩

theorem askPasswordKey_enter (oracle : ProcOutput) (s : AppState) :
    ∃ u invs, askPasswordKey oracle s KeyCode.enter =
      some ⟨if isPwErrOrErrMsg u then { s with ui := u, password := "" }
            else { s with ui := u }, false, invs⟩ := by
  cases hpa : s.pending_action with
  | none =>
      refine ⟨UIState.main, [], ?_⟩
      simp [askPasswordKey, hpa, isPwErrOrErrMsg]
  | setOrder ids =>
      refine ⟨(execute_set_boot_order ids s.password oracle).1,
              [(execute_set_boot_order ids s.password oracle).2], ?_⟩
      simp only [askPasswordKey, hpa]
  | bootOnce id =>
      refine ⟨(execute_boot_once id s.password oracle).1,
              [(execute_boot_once id s.password oracle).2], ?_⟩
      simp only [askPasswordKey, hpa]

/-- C1 counterexample: in AskPassword with buffer "abc" and a pending
SetOrder action, a submission whose oracle reports success (zero exit, empty
error stream) yields state `ConfirmReboot` with the buffer still "abc" — the
secret is not cleared on a successful use, contrary to the claim. -/
theorem C1_counterexample :
    (step ⟨some 0, ""⟩
        { sampleState UIState.askPassword with
            password := "abc", pending_action := Action.setOrder ["0001", "0002"] }
        (Event.key KeyCode.enter)).map
        (fun r => (r.state.ui, r.state.password)) =
      some (UIState.confirmReboot, "abc") ∧ ("abc" : String) ≠ "" :=
  ⟨by decide, by decide⟩

/-- C1 (amended): the secret buffer is cleared on cancellation of the
password prompt (Esc also discards the pending action), and after a
submission it is cleared exactly when the resulting state is `PasswordError`
or `ErrorMessage`; after a submission whose outcome is success (resulting
state `ConfirmReboot` or `CountdownReboot 5`) the buffer retains the typed
password — it is only cleared again by the next confirm in the Main state
before re-entering AskPassword. -/
theorem C1_secret_buffer (oracle : ProcOutput) (s : AppState)
    (h : s.ui = UIState.askPassword) :
    (∃ r, step oracle s (Event.key KeyCode.esc) = some r ∧
        r.state.password = "" ∧ r.state.pending_action = Action.none) ∧
    (∃ r, step oracle s (Event.key KeyCode.enter) = some r ∧
        (isPwErrOrErrMsg r.state.ui = true → r.state.password = "") ∧
        (isPwErrOrErrMsg r.state.ui = false → r.state.password = s.password)) := by
  constructor
  · refine ⟨⟨({ s with
                  password := ""
                  pending_action := Action.none
                  ui := UIState.main }), false, []⟩, ?_, rfl, rfl⟩
    simp [step, stepKey, h, askPasswordKey, contOut]
  · obtain ⟨u, invs, he⟩ := askPasswordKey_enter oracle s
    have hs : step oracle s (Event.key KeyCode.enter) =
        askPasswordKey oracle s KeyCode.enter := by
      simp [step, stepKey, h]
    rw [hs, he]
    by_cases hu : isPwErrOrErrMsg u = true
    · rw [if_pos hu]
      exact ⟨_, rfl, fun _ => rfl, fun hc => by rw [hu] at hc; cases hc⟩
    · rw [if_neg hu]
      refine ⟨_, rfl, fun hc => ?_, fun _ => rfl⟩
      exact absurd hc hu

/-- C1 witness: cancelling a concrete AskPassword session with buffer "abc"
clears the buffer and discards the pending action. -/
theorem C1_secret_buffer_witness :
    ((step ⟨some 0, ""⟩
        ({ sampleState UIState.askPassword with password := "abc" })
        (Event.key KeyCode.esc)).map
        (fun r => (r.state.password, r.state.pending_action))) =
      some ("", Action.none) := by
  obtain ⟨r, hr, h1, h2⟩ := (C1_secret_buffer ⟨some 0, ""⟩
    ({ sampleState UIState.askPassword with password := "abc" }) rfl).1
  rw [hr]
  simp [h1, h2]

/-- C3 counterexample: in the reachable `PasswordError` state, pressing the
cancel key (Esc, like any key there) transitions to `AskPassword`, not to
`Main` as the claim requires of every state other than AskPassword. -/
theorem C3_counterexample :
    (step ⟨some 0, ""⟩ (sampleState UIState.passwordError)
        (Event.key KeyCode.esc)).map (fun r => r.state.ui) =
      some UIState.askPassword ∧
    UIState.askPassword ≠ UIState.main :=
  ⟨by decide, by decide⟩

/-- C3 (amended): in every state except `PasswordError` and `ErrorMessage`,
pressing Esc transitions to `Main` (trivially so in `Main` itself, where Esc
is a no-op) without mutating the Reorder Model (entries, both cursors,
focus), halting, or issuing an invocation; in `AskPassword` it additionally
clears the secret buffer and discards the pending action. In `PasswordError`
and `ErrorMessage`, Esc — like any key — transitions to `AskPassword`
instead, also leaving the Reorder Model unchanged. -/
theorem C3_cancel (oracle : ProcOutput) (s : AppState) :
    (s.ui = UIState.main ∨ s.ui = UIState.askPassword ∨
     s.ui = UIState.confirmReboot ∨ (∃ n, s.ui = UIState.countdownReboot n) ∨
     s.ui = UIState.quitConfirm ∨ s.ui = UIState.help →
      ∃ r, step oracle s (Event.key KeyCode.esc) = some r ∧
        r.state.ui = UIState.main ∧ r.halted = false ∧ r.invocations = [] ∧
        r.state.entries = s.entries ∧
        r.state.selected_priority = s.selected_priority ∧
        r.state.selected_boot_once = s.selected_boot_once ∧
        r.state.focus = s.focus ∧
        (s.ui = UIState.askPassword →
          r.state.password = "" ∧ r.state.pending_action = Action.none)) ∧
    ((s.ui = UIState.passwordError ∨ ∃ t, s.ui = UIState.errorMessage t) →
      ∃ r, step oracle s (Event.key KeyCode.esc) = some r ∧
        r.state.ui = UIState.askPassword ∧
        r.state.entries = s.entries ∧
        r.state.selected_priority = s.selected_priority ∧
        r.state.selected_boot_once = s.selected_boot_once ∧
        r.state.focus = s.focus) := by
  constructor
  · rintro (h | h | h | ⟨n, h⟩ | h | h)
    · exact ⟨⟨s, false, []⟩,
        by simp [step, stepKey, h, mainKey, contOut], h, rfl, rfl, rfl, rfl,
        rfl, rfl, fun hask => by rw [h] at hask; cases hask⟩
    · exact ⟨⟨({ s with
                   password := ""
                   pending_action := Action.none
                   ui := UIState.main }), false, []⟩,
        by simp [step, stepKey, h, askPasswordKey, contOut], rfl, rfl, rfl,
        rfl, rfl, rfl, rfl, fun _ => ⟨rfl, rfl⟩⟩
    · exact ⟨⟨{ s with ui := UIState.main }, false, []⟩,
        by simp [step, stepKey, h, confirmRebootKey, contOut], rfl, rfl, rfl,
        rfl, rfl, rfl, rfl, fun hask => by rw [h] at hask; cases hask⟩
    · exact ⟨⟨{ s with ui := UIState.main }, false, []⟩,
        by simp [step, stepKey, h, countdownKey, contOut], rfl, rfl, rfl,
        rfl, rfl, rfl, rfl, fun hask => by rw [h] at hask; cases hask⟩
    · exact ⟨⟨{ s with ui := UIState.main }, false, []⟩,
        by simp [step, stepKey, h, quitConfirmKey, contOut], rfl, rfl, rfl,
        rfl, rfl, rfl, rfl, fun hask => by rw [h] at hask; cases hask⟩
    · exact ⟨⟨{ s with ui := UIState.main }, false, []⟩,
        by simp [step, stepKey, h, contOut], rfl, rfl, rfl,
        rfl, rfl, rfl, rfl, fun hask => by rw [h] at hask; cases hask⟩
  · rintro (h | ⟨t, h⟩)
    · exact ⟨⟨{ s with ui := UIState.askPassword }, false, []⟩,
        by simp [step, stepKey, h, contOut], rfl, rfl, rfl, rfl, rfl⟩
    · exact ⟨⟨{ s with ui := UIState.askPassword }, false, []⟩,
        by simp [step, stepKey, h, contOut], rfl, rfl, rfl, rfl, rfl⟩

/-- C9: the Main-state Enter handler with the BootTarget panel focused
indexes `entries[selected_boot_once]` with no emptiness guard: when the
entries sequence is empty the step is partial (`none`, a panic in the
implementation); under the precondition that the cursor is in bounds — in
particular whenever entries is non-empty and the cursor invariant holds —
the step succeeds and enters AskPassword with a BootOnce pending action for
the selected entry. -/
theorem C9_boot_target_panic (oracle : ProcOutput) (s : AppState)
    (hui : s.ui = UIState.main) (hf : s.focus = Focus.bootOnce) :
    (s.entries = [] → step oracle s (Event.key KeyCode.enter) = Option.none) ∧
    (s.selected_boot_once < s.entries.length →
      ∃ e r, s.entries[s.selected_boot_once]? = some e ∧
        step oracle s (Event.key KeyCode.enter) = some r ∧
        r.state.ui = UIState.askPassword ∧
        r.state.pending_action = Action.bootOnce e.id ∧
        r.state.password = "") := by
  constructor
  · intro hent
    simp [step, stepKey, hui, mainKey, mainEnter, hf, hent]
  · intro hlt
    have he : s.entries[s.selected_boot_once]? = some s.entries[s.selected_boot_once] :=
      List.getElem?_eq_getElem hlt
    refine ⟨s.entries[s.selected_boot_once],
      ⟨({ s with
            pending_action := Action.bootOnce s.entries[s.selected_boot_once].id
            password := ""
            ui := UIState.askPassword }), false, []⟩, he, ?_, rfl, rfl, rfl⟩
    simp [step, stepKey, hui, mainKey, mainEnter, hf, he]

/-- C9 witness: with two entries and cursor 0 the step succeeds into
AskPassword; with an empty entries sequence the same keypress is the panic
case. -/
theorem C9_boot_target_panic_witness :
    step ⟨some 0, ""⟩
      ({ sampleState UIState.main with entries := [], focus := Focus.bootOnce })
      (Event.key KeyCode.enter) = Option.none ∧
    (step ⟨some 0, ""⟩ ({ sampleState UIState.main with focus := Focus.bootOnce })
        (Event.key KeyCode.enter)).map (fun r => r.state.ui) =
      some UIState.askPassword := by
  constructor
  · exact (C9_boot_target_panic ⟨some 0, ""⟩
      ({ sampleState UIState.main with entries := [], focus := Focus.bootOnce })
      rfl rfl).1 rfl
  · obtain ⟨e, r, _, hs, hui2, _, _⟩ := (C9_boot_target_panic ⟨some 0, ""⟩
      ({ sampleState UIState.main with focus := Focus.bootOnce }) rfl rfl).2
      (by decide)
    rw [hs]
    simp [hui2]

theorem mainUpKey_show_password (s : AppState) :
    (mainUpKey s).show_password = s.show_password := by
  unfold mainUpKey
  split <;> split <;> rfl

theorem mainDownKey_show_password (s : AppState) :
    (mainDownKey s).show_password = s.show_password := by
  unfold mainDownKey
  split <;> split <;> rfl

theorem mainMoveUp_show_password (s : AppState) :
    (mainMoveUp s).show_password = s.show_password := by
  unfold mainMoveUp
  split <;> rfl

theorem mainMoveDown_show_password (s : AppState) :
    (mainMoveDown s).show_password = s.show_password := by
  unfold mainMoveDown
  split <;> rfl

theorem mainEnter_show_password (s s' : AppState) (h : mainEnter s = some s') :
    s'.show_password = s.show_password := by
  unfold mainEnter at h
  split at h
  · rw [Option.some.injEq] at h
    subst h
    rfl
  · split at h
    · rw [Option.some.injEq] at h
      subst h
      rfl
    · cases h

theorem mainKey_show_password (s : AppState) (k : KeyCode) (r : StepOut)
    (h : mainKey s k = some r) : r.state.show_password = s.show_password := by
  cases k with
  | char c =>
      simp only [mainKey, contOut] at h
      split_ifs at h <;> (rw [Option.some.injEq] at h; subst h) <;>
        simp [mainUpKey_show_password, mainDownKey_show_password,
          mainMoveUp_show_password, mainMoveDown_show_password]
  | enter =>
      simp only [mainKey] at h
      cases hm : mainEnter s with
      | none => rw [hm] at h; cases h
      | some s' =>
          rw [hm] at h
          simp only [Option.map_some'] at h
          rw [Option.some.injEq] at h
          subst h
          exact mainEnter_show_password s s' hm
  | up =>
      simp only [mainKey, contOut, Option.some.injEq] at h
      subst h
      exact mainUpKey_show_password s
  | down =>
      simp only [mainKey, contOut, Option.some.injEq] at h
      subst h
      exact mainDownKey_show_password s
  | tab =>
      simp only [mainKey, contOut, Option.some.injEq] at h
      subst h
      rfl
  | left =>
      simp only [mainKey, contOut, Option.some.injEq] at h
      subst h
      rfl
  | right =>
      simp only [mainKey, contOut, Option.some.injEq] at h
      subst h
      rfl
  | esc =>
      simp only [mainKey, contOut, Option.some.injEq] at h
      subst h
      rfl
  | backspace =>
      simp only [mainKey, contOut, Option.some.injEq] at h
      subst h
      rfl
  | other =>
      simp only [mainKey, contOut, Option.some.injEq] at h
      subst h
      rfl

theorem askPasswordKey_show_password (oracle : ProcOutput) (s : AppState)
    (k : KeyCode) (r : StepOut) (hk : k ≠ KeyCode.tab)
    (h : askPasswordKey oracle s k = some r) :
    r.state.show_password = s.show_password := by
  cases k with
  | tab => exact absurd rfl hk
  | enter =>
      obtain ⟨u, invs, he⟩ := askPasswordKey_enter oracle s
      rw [he, Option.some.injEq] at h
      subst h
      split <;> rfl
  | char c =>
      simp only [askPasswordKey, contOut, Option.some.injEq] at h
      subst h
      rfl
  | esc =>
      simp only [askPasswordKey, contOut, Option.some.injEq] at h
      subst h
      rfl
  | backspace =>
      simp only [askPasswordKey, contOut, Option.some.injEq] at h
      subst h
      rfl
  | up =>
      simp only [askPasswordKey, contOut, Option.some.injEq] at h
      subst h
      rfl
  | down =>
      simp only [askPasswordKey, contOut, Option.some.injEq] at h
      subst h
      rfl
  | left =>
      simp only [askPasswordKey, contOut, Option.some.injEq] at h
      subst h
      rfl
  | right =>
      simp only [askPasswordKey, contOut, Option.some.injEq] at h
      subst h
      rfl
  | other =>
      simp only [askPasswordKey, contOut, Option.some.injEq] at h
      subst h
      rfl

theorem confirmRebootKey_show_password (s : AppState) (k : KeyCode)
    (r : StepOut) (h : confirmRebootKey s k = some r) :
    r.state.show_password = s.show_password := by
  cases k <;> simp only [confirmRebootKey, contOut, Option.some.injEq] at h <;>
    first
      | (subst h; rfl)
      | (split at h <;> (rw [Option.some.injEq] at h; subst h; rfl))

theorem countdownKey_show_password (s : AppState) (k : KeyCode)
    (r : StepOut) (h : countdownKey s k = some r) :
    r.state.show_password = s.show_password := by
  cases k <;> simp only [countdownKey, contOut, Option.some.injEq] at h <;>
    (subst h; rfl)

theorem quitConfirmKey_show_password (s : AppState) (k : KeyCode)
    (r : StepOut) (h : quitConfirmKey s k = some r) :
    r.state.show_password = s.show_password := by
  cases k <;> simp only [quitConfirmKey, contOut, Option.some.injEq] at h <;>
    first
      | (subst h; rfl)
      | (split at h <;> (rw [Option.some.injEq] at h; subst h; rfl))

theorem stepTick_show_password (s : AppState) :
    (stepTick s).state.show_password = s.show_password := by
  unfold stepTick
  split
  · split <;> rfl
  · rfl

/-- C10: the show-password display flag is preserved by every step except the
visibility toggle itself (Tab while in AskPassword). In particular it is
preserved on entering AskPassword (Main-state confirm) and on every exit from
AskPassword, so its value at the start of a later password-entry session
equals its value at the end of the earlier one. -/
theorem C10_show_password (oracle : ProcOutput) (s : AppState) (e : Event)
    (r : StepOut) (hr : step oracle s e = some r)
    (h : ¬(s.ui = UIState.askPassword ∧ e = Event.key KeyCode.tab)) :
    r.state.show_password = s.show_password := by
  cases e with
  | tick =>
      have h2 : stepTick s = r := by
        rw [step, Option.some.injEq] at hr
        exact hr
      rw [← h2]
      exact stepTick_show_password s
  | key k =>
      have h2 : stepKey oracle s k = some r := hr
      cases hu : s.ui with
      | main =>
          simp only [stepKey, hu] at h2
          exact mainKey_show_password s k r h2
      | askPassword =>
          simp only [stepKey, hu] at h2
          refine askPasswordKey_show_password oracle s k r (fun hk => ?_) h2
          exact h ⟨hu, by rw [hk]⟩
      | passwordError =>
          simp only [stepKey, hu, contOut, Option.some.injEq] at h2
          subst h2
          rfl
      | confirmReboot =>
          simp only [stepKey, hu] at h2
          exact confirmRebootKey_show_password s k r h2
      | countdownReboot n =>
          simp only [stepKey, hu] at h2
          exact countdownKey_show_password s k r h2
      | quitConfirm =>
          simp only [stepKey, hu] at h2
          exact quitConfirmKey_show_password s k r h2
      | help =>
          simp only [stepKey, hu, contOut, Option.some.injEq] at h2
          subst h2
          rfl
      | errorMessage t =>
          simp only [stepKey, hu, contOut, Option.some.injEq] at h2
          subst h2
          rfl

/-- C10 witness: a concrete non-toggle step (Tab in Main switches focus)
preserves the flag. -/
theorem C10_show_password_witness :
    ({ sampleState UIState.main with focus := Focus.bootOnce } : AppState).show_password =
      (sampleState UIState.main).show_password :=
  C10_show_password ⟨some 0, ""⟩ (sampleState UIState.main)
    (Event.key KeyCode.tab)
    ⟨{ sampleState UIState.main with focus := Focus.bootOnce }, false, []⟩
    (by decide) (by decide)

/-- C3 witness: Esc in a concrete Help state returns to Main. -/
theorem C3_cancel_witness :
    ((step ⟨some 0, ""⟩ (sampleState UIState.help) (Event.key KeyCode.esc)).map
        (fun r => r.state.ui)) = some UIState.main := by
  obtain ⟨r, hr, hui, _⟩ := (C3_cancel ⟨some 0, ""⟩ (sampleState UIState.help)).1
    (Or.inr (Or.inr (Or.inr (Or.inr (Or.inr rfl)))))
  rw [hr]
  simp [hui]

theorem swapList_length {α : Type} (l : List α) (i j : Nat) :
    (swapList l i j).length = l.length := by
  unfold swapList
  split <;> simp

theorem getElem?_swapList {α : Type} (l : List α) (i j n : Nat)
    (hi : i < l.length) (hj : j < l.length) :
    (swapList l i j)[n]? =
      if n = i then l[j]? else if n = j then l[i]? else l[n]? := by
  have hseteq : swapList l i j = (l.set i l[j]).set j l[i] := by
    unfold swapList
    rw [List.getElem?_eq_getElem hi, List.getElem?_eq_getElem hj]
  rw [hseteq]
  by_cases h2 : n = j
  · subst h2
    rw [List.getElem?_set_self (by simpa using hj)]
    by_cases h1 : n = i
    · subst h1
      rw [if_pos rfl, List.getElem?_eq_getElem hj]
    · rw [if_neg h1, if_pos rfl, List.getElem?_eq_getElem hi]
  · rw [List.getElem?_set_ne (fun hh : j = n => h2 hh.symm)]
    by_cases h1 : n = i
    · subst h1
      rw [List.getElem?_set_self hi, if_pos rfl, List.getElem?_eq_getElem hj]
    · rw [List.getElem?_set_ne (fun hh : i = n => h1 hh.symm), if_neg h1,
        if_neg h2]

theorem swapList_swapList {α : Type} (l : List α) (i j : Nat)
    (hi : i < l.length) (hj : j < l.length) :
    swapList (swapList l i j) j i = l := by
  have hl := swapList_length l i j
  apply List.ext_getElem?
  intro n
  rw [getElem?_swapList (swapList l i j) j i n (by omega) (by omega)]
  by_cases h1 : n = j
  · rw [if_pos h1, getElem?_swapList l i j i hi hj, if_pos rfl, h1]
  · by_cases h2 : n = i
    · rw [if_neg h1, if_pos h2, getElem?_swapList l i j j hi hj]
      by_cases hji : j = i
      · rw [if_pos hji, hji, h2]
      · rw [if_neg hji, if_pos rfl, h2]
    · rw [if_neg h1, if_neg h2, getElem?_swapList l i j n hi hj, if_neg h2,
        if_neg h1]

/-- C7: from the Main state with the Priority panel focused and the cursor
not at the last entry, pressing move-down then move-up restores the entire
loop state — in particular the original entries sequence and cursor. -/
theorem C7_move_roundtrip (oracle : ProcOutput) (s : AppState)
    (hui : s.ui = UIState.main) (hf : s.focus = Focus.priority)
    (hlt : s.selected_priority + 1 < s.entries.length) :
    ∃ r1 r2, step oracle s (Event.key (KeyCode.char 'd')) = some r1 ∧
      step oracle r1.state (Event.key (KeyCode.char 'u')) = some r2 ∧
      r2.state = s := by
  refine ⟨⟨({ s with
      entries := swapList s.entries s.selected_priority (s.selected_priority + 1)
      selected_priority := s.selected_priority + 1 }), false, []⟩,
    ⟨({ s with
      entries := swapList
        (swapList s.entries s.selected_priority (s.selected_priority + 1))
        (s.selected_priority + 1) s.selected_priority
      selected_priority := s.selected_priority }), false, []⟩, ?_, ?_, ?_⟩
  · simp [step, stepKey, hui, mainKey, hf, mainMoveDown, hlt, contOut]
  · simp [step, stepKey, hui, mainKey, hf, mainMoveUp, contOut]
  · show ({ s with
      entries := swapList
        (swapList s.entries s.selected_priority (s.selected_priority + 1))
        (s.selected_priority + 1) s.selected_priority
      selected_priority := s.selected_priority } : AppState) = s
    rw [swapList_swapList s.entries s.selected_priority (s.selected_priority + 1)
      (by omega) hlt]

/-- C7 witness: the roundtrip at a concrete two-entry state. -/
theorem C7_move_roundtrip_witness :
    ((step ⟨some 0, ""⟩ (sampleState UIState.main)
        (Event.key (KeyCode.char 'd'))).bind
      (fun r1 => step ⟨some 0, ""⟩ r1.state (Event.key (KeyCode.char 'u')))).map
      (fun r2 => r2.state) = some (sampleState UIState.main) := by
  obtain ⟨r1, r2, h1, h2, h3⟩ :=
    C7_move_roundtrip ⟨some 0, ""⟩ (sampleState UIState.main) rfl rfl (by decide)
  rw [h1]
  simp [h2, h3]

/-- Both cursors lie in `[0, len(entries))`. -/
def cursorsInBounds (s : AppState) : Prop :=
  s.selected_priority < s.entries.length ∧
  s.selected_boot_once < s.entries.length

theorem mainUpKey_bounds (s : AppState) (h : cursorsInBounds s) :
    cursorsInBounds (mainUpKey s) := by
  obtain ⟨h1, h2⟩ := h
  unfold mainUpKey cursorsInBounds
  split <;> split <;> refine ⟨?_, ?_⟩ <;> (try simp) <;> omega

theorem mainDownKey_bounds (s : AppState) (h : cursorsInBounds s) :
    cursorsInBounds (mainDownKey s) := by
  obtain ⟨h1, h2⟩ := h
  unfold mainDownKey cursorsInBounds
  split <;> split <;> refine ⟨?_, ?_⟩ <;> (try simp) <;> omega

theorem mainMoveUp_bounds (s : AppState) (h : cursorsInBounds s) :
    cursorsInBounds (mainMoveUp s) := by
  obtain ⟨h1, h2⟩ := h
  unfold mainMoveUp cursorsInBounds
  split <;> refine ⟨?_, ?_⟩ <;> (try simp [swapList_length]) <;> omega

theorem mainMoveDown_bounds (s : AppState) (h : cursorsInBounds s) :
    cursorsInBounds (mainMoveDown s) := by
  obtain ⟨h1, h2⟩ := h
  unfold mainMoveDown cursorsInBounds
  split <;> refine ⟨?_, ?_⟩ <;> (try simp [swapList_length]) <;> omega

theorem mainEnter_bounds (s s' : AppState) (h : mainEnter s = some s')
    (hb : cursorsInBounds s) : cursorsInBounds s' := by
  unfold mainEnter at h
  split at h
  · rw [Option.some.injEq] at h
    subst h
    exact hb
  · split at h
    · rw [Option.some.injEq] at h
      subst h
      exact hb
    · cases h

theorem mainKey_bounds (s : AppState) (k : KeyCode) (r : StepOut)
    (h : mainKey s k = some r) (hb : cursorsInBounds s) :
    cursorsInBounds r.state := by
  cases k with
  | char c =>
      simp only [mainKey, contOut] at h
      split_ifs at h <;> (rw [Option.some.injEq] at h; subst h) <;>
        first
          | exact hb
          | exact mainUpKey_bounds s hb
          | exact mainDownKey_bounds s hb
          | exact mainMoveUp_bounds s hb
          | exact mainMoveDown_bounds s hb
  | enter =>
      simp only [mainKey] at h
      cases hm : mainEnter s with
      | none => rw [hm] at h; cases h
      | some s' =>
          rw [hm] at h
          simp only [Option.map_some'] at h
          rw [Option.some.injEq] at h
          subst h
          exact mainEnter_bounds s s' hm hb
  | up =>
      simp only [mainKey, contOut, Option.some.injEq] at h
      subst h
      exact mainUpKey_bounds s hb
  | down =>
      simp only [mainKey, contOut, Option.some.injEq] at h
      subst h
      exact mainDownKey_bounds s hb
  | tab =>
      simp only [mainKey, contOut, Option.some.injEq] at h
      subst h
      exact hb
  | left =>
      simp only [mainKey, contOut, Option.some.injEq] at h
      subst h
      exact hb
  | right =>
      simp only [mainKey, contOut, Option.some.injEq] at h
      subst h
      exact hb
  | esc =>
      simp only [mainKey, contOut, Option.some.injEq] at h
      subst h
      exact hb
  | backspace =>
      simp only [mainKey, contOut, Option.some.injEq] at h
      subst h
      exact hb
  | other =>
      simp only [mainKey, contOut, Option.some.injEq] at h
      subst h
      exact hb

theorem askPasswordKey_bounds (oracle : ProcOutput) (s : AppState)
    (k : KeyCode) (r : StepOut) (h : askPasswordKey oracle s k = some r)
    (hb : cursorsInBounds s) : cursorsInBounds r.state := by
  cases k with
  | enter =>
      obtain ⟨u, invs, he⟩ := askPasswordKey_enter oracle s
      rw [he, Option.some.injEq] at h
      subst h
      split <;> exact hb
  | tab =>
      simp only [askPasswordKey, contOut, Option.some.injEq] at h
      subst h
      exact hb
  | char c =>
      simp only [askPasswordKey, contOut, Option.some.injEq] at h
      subst h
      exact hb
  | esc =>
      simp only [askPasswordKey, contOut, Option.some.injEq] at h
      subst h
      exact hb
  | backspace =>
      simp only [askPasswordKey, contOut, Option.some.injEq] at h
      subst h
      exact hb
  | up =>
      simp only [askPasswordKey, contOut, Option.some.injEq] at h
      subst h
      exact hb
  | down =>
      simp only [askPasswordKey, contOut, Option.some.injEq] at h
      subst h
      exact hb
  | left =>
      simp only [askPasswordKey, contOut, Option.some.injEq] at h
      subst h
      exact hb
  | right =>
      simp only [askPasswordKey, contOut, Option.some.injEq] at h
      subst h
      exact hb
  | other =>
      simp only [askPasswordKey, contOut, Option.some.injEq] at h
      subst h
      exact hb

theorem confirmRebootKey_bounds (s : AppState) (k : KeyCode) (r : StepOut)
    (h : confirmRebootKey s k = some r) (hb : cursorsInBounds s) :
    cursorsInBounds r.state := by
  cases k <;> simp only [confirmRebootKey, contOut, Option.some.injEq] at h <;>
    first
      | (subst h; exact hb)
      | (split at h <;> (rw [Option.some.injEq] at h; subst h; exact hb))

theorem countdownKey_bounds (s : AppState) (k : KeyCode) (r : StepOut)
    (h : countdownKey s k = some r) (hb : cursorsInBounds s) :
    cursorsInBounds r.state := by
  cases k <;> simp only [countdownKey, contOut, Option.some.injEq] at h <;>
    (subst h; exact hb)

theorem quitConfirmKey_bounds (s : AppState) (k : KeyCode) (r : StepOut)
    (h : quitConfirmKey s k = some r) (hb : cursorsInBounds s) :
    cursorsInBounds r.state := by
  cases k <;> simp only [quitConfirmKey, contOut, Option.some.injEq] at h <;>
    first
      | (subst h; exact hb)
      | (split at h <;> (rw [Option.some.injEq] at h; subst h; exact hb))

theorem stepTick_bounds (s : AppState) (hb : cursorsInBounds s) :
    cursorsInBounds (stepTick s).state := by
  unfold stepTick
  split
  · split
    · exact hb
    · exact hb
  · exact hb

theorem step_bounds (oracle : ProcOutput) (s : AppState) (e : Event)
    (r : StepOut) (hr : step oracle s e = some r) (hb : cursorsInBounds s) :
    cursorsInBounds r.state := by
  cases e with
  | tick =>
      have h2 : stepTick s = r := by
        rw [step, Option.some.injEq] at hr
        exact hr
      rw [← h2]
      exact stepTick_bounds s hb
  | key k =>
      have h2 : stepKey oracle s k = some r := hr
      cases hu : s.ui with
      | main =>
          simp only [stepKey, hu] at h2
          exact mainKey_bounds s k r h2 hb
      | askPassword =>
          simp only [stepKey, hu] at h2
          exact askPasswordKey_bounds oracle s k r h2 hb
      | passwordError =>
          simp only [stepKey, hu, contOut, Option.some.injEq] at h2
          subst h2
          exact hb
      | confirmReboot =>
          simp only [stepKey, hu] at h2
          exact confirmRebootKey_bounds s k r h2 hb
      | countdownReboot n =>
          simp only [stepKey, hu] at h2
          exact countdownKey_bounds s k r h2 hb
      | quitConfirm =>
          simp only [stepKey, hu] at h2
          exact quitConfirmKey_bounds s k r h2 hb
      | help =>
          simp only [stepKey, hu, contOut, Option.some.injEq] at h2
          subst h2
          exact hb
      | errorMessage t =>
          simp only [stepKey, hu, contOut, Option.some.injEq] at h2
          subst h2
          exact hb

theorem runEvents_bounds (oracle : ProcOutput) (es : List Event)
    (s s' : AppState) (h : runEvents oracle es s = some s')
    (hb : cursorsInBounds s) : cursorsInBounds s' := by
  induction es generalizing s with
  | nil =>
      simp only [runEvents, Option.some.injEq] at h
      subst h
      exact hb
  | cons e es ih =>
      cases hstep : step oracle s e with
      | none => simp [runEvents, hstep] at h
      | some r =>
          simp only [runEvents, hstep] at h
          by_cases hh : r.halted = true
          · rw [if_pos hh, Option.some.injEq] at h
            subst h
            exact step_bounds oracle s e r hstep hb
          · rw [if_neg hh] at h
            exact ih r.state h (step_bounds oracle s e r hstep hb)

theorem initState_bounds (entries : List BootEntry) (order : List String)
    (h : entries ≠ []) : cursorsInBounds (initState entries order) := by
  have hlen : (init_sorted_entries entries order).length = entries.length := by
    unfold init_sorted_entries
    split
    · rfl
    · exact (List.perm_insertionSort (keyLe order) entries).length_eq
  have hpos : 0 < (init_sorted_entries entries order).length := by
    rw [hlen]
    exact List.length_pos.mpr h
  exact ⟨hpos, hpos⟩

/-- C6: the two-cursor invariant of the Reorder Model. The initial state of a
non-empty entries list satisfies it; every step of the state machine (hence
any event sequence, by `runEvents`) preserves it; and at the boundaries a
movement keypress in the Main state is a no-op: Up with the focused cursor at
0, and Down with the focused cursor at the last entry, leave the whole state
unchanged. -/
theorem C6_cursor_bounds (oracle : ProcOutput) :
    (∀ entries order, entries ≠ [] →
      cursorsInBounds (initState entries order)) ∧
    (∀ s e r, step oracle s e = some r → cursorsInBounds s →
      cursorsInBounds r.state) ∧
    (∀ es s s', runEvents oracle es s = some s' → cursorsInBounds s →
      cursorsInBounds s') ∧
    (∀ s, s.ui = UIState.main →
      ((s.focus = Focus.priority ∧ s.selected_priority = 0) ∨
       (s.focus = Focus.bootOnce ∧ s.selected_boot_once = 0) →
        step oracle s (Event.key KeyCode.up) = some ⟨s, false, []⟩) ∧
      ((s.focus = Focus.priority ∧
          s.selected_priority + 1 = s.entries.length) ∨
       (s.focus = Focus.bootOnce ∧
          s.selected_boot_once + 1 = s.entries.length) →
        step oracle s (Event.key KeyCode.down) = some ⟨s, false, []⟩)) := by
  refine ⟨initState_bounds, step_bounds oracle, runEvents_bounds oracle,
    fun s hui => ⟨?_, ?_⟩⟩
  · rintro (⟨hf, hc⟩ | ⟨hf, hc⟩) <;>
      simp [step, stepKey, hui, mainKey, mainUpKey, hf, hc, contOut]
  · rintro (⟨hf, hc⟩ | ⟨hf, hc⟩) <;>
      simp [step, stepKey, hui, mainKey, mainDownKey, hf, contOut] <;>
      omega

/-- C6 witness: the invariant of a concrete initial state, and an Up keypress
at cursor 0 leaving a concrete state unchanged. -/
theorem C6_cursor_bounds_witness :
    cursorsInBounds (initState [⟨"0001", "Linux"⟩] []) ∧
    step ⟨some 0, ""⟩ (sampleState UIState.main) (Event.key KeyCode.up) =
      some ⟨sampleState UIState.main, false, []⟩ := by
  obtain ⟨hinit, _, _, hbound⟩ := C6_cursor_bounds ⟨some 0, ""⟩
  exact ⟨hinit [⟨"0001", "Linux"⟩] [] (by decide),
    (hbound (sampleState UIState.main) rfl).1 (Or.inl ⟨rfl, rfl⟩)⟩

/-- Whether an entry's id appears in the fetched boot order. -/
def inOrder (order : List String) (e : BootEntry) : Bool :=
  (order.findIdx? (fun id => id = e.id)).isSome

theorem order_key_of_not_inOrder (order : List String) (e : BootEntry)
    (h : inOrder order e = false) : order_key order e = USIZE_MAX := by
  unfold inOrder at h
  cases hf : order.findIdx? (fun id => id = e.id) with
  | none => simp [order_key, hf]
  | some i =>
      rw [hf] at h
      simp at h

theorem order_key_of_inOrder (order : List String) (e : BootEntry)
    (h : inOrder order e = true) : order_key order e < order.length := by
  unfold inOrder at h
  cases hf : order.findIdx? (fun id => id = e.id) with
  | none =>
      rw [hf] at h
      simp at h
  | some i =>
      have hi := (List.findIdx?_eq_some_iff_findIdx_eq.mp hf).1
      simp [order_key, hf, hi]

theorem inOrder_of_key_lt (order : List String) (e : BootEntry)
    (h : order_key order e < USIZE_MAX) : inOrder order e = true := by
  by_cases hio : inOrder order e = true
  · exact hio
  · have hk := order_key_of_not_inOrder order e (by simpa using hio)
    omega

theorem orderedInsert_filter_pos {α : Type} (r : α → α → Prop) [DecidableRel r]
    (p : α → Bool) (a : α) (l : List α) (hpa : p a = true)
    (hcl : ∀ b, ¬ r a b → p b = false) :
    (List.orderedInsert r a l).filter p = a :: l.filter p := by
  induction l with
  | nil => simp [List.orderedInsert, List.filter_cons, hpa]
  | cons b t ih =>
      rw [List.orderedInsert]
      by_cases hr : r a b
      · rw [if_pos hr, List.filter_cons, if_pos hpa]
      · rw [if_neg hr, List.filter_cons, if_neg (by simp [hcl b hr]), ih,
          List.filter_cons, if_neg (by simp [hcl b hr])]

theorem orderedInsert_filter_neg {α : Type} (r : α → α → Prop) [DecidableRel r]
    (p : α → Bool) (a : α) (l : List α) (hpa : p a = false) :
    (List.orderedInsert r a l).filter p = l.filter p := by
  induction l with
  | nil => simp [List.orderedInsert, List.filter_cons, hpa]
  | cons b t ih =>
      rw [List.orderedInsert]
      by_cases hr : r a b
      · rw [if_pos hr, List.filter_cons, if_neg (by simp [hpa])]
      · rw [if_neg hr, List.filter_cons, List.filter_cons]
        by_cases hpb : p b = true
        · rw [if_pos hpb, if_pos hpb, ih]
        · rw [if_neg hpb, if_neg hpb, ih]

theorem insertionSort_filter_stable {α : Type} (r : α → α → Prop)
    [DecidableRel r] (p : α → Bool)
    (hc : ∀ a b, p a = true → ¬ r a b → p b = false) (l : List α) :
    (List.insertionSort r l).filter p = l.filter p := by
  induction l with
  | nil => rfl
  | cons a t ih =>
      rw [List.insertionSort]
      by_cases hpa : p a = true
      · rw [orderedInsert_filter_pos r p a _ hpa (fun b hb => hc a b hpa hb),
          ih, List.filter_cons, if_pos hpa]
      · have hpa2 : p a = false := by simpa using hpa
        rw [orderedInsert_filter_neg r p a _ hpa2, ih, List.filter_cons,
          if_neg hpa]

theorem sorted_filter_partition {α : Type} (r : α → α → Prop) (p : α → Bool)
    (hmono : ∀ a b, r a b → p a = false → p b = false) (l : List α)
    (hl : List.Pairwise r l) :
    l.filter p ++ l.filter (fun x => !p x) = l := by
  induction hl with
  | nil => rfl
  | @cons a t hab hp ih =>
      by_cases hpa : p a = true
      · rw [List.filter_cons, if_pos hpa, List.filter_cons,
          if_neg (by simp [hpa]), List.cons_append, ih]
      · have hpa2 : p a = false := by simpa using hpa
        have hnil : t.filter p = [] := by
          rw [List.filter_eq_nil_iff]
          intro x hx
          simp [hmono a x (hab x hx) hpa2]
        have hself : t.filter (fun x => !p x) = t := by
          rw [List.filter_eq_self]
          intro x hx
          simp [hmono a x (hab x hx) hpa2]
        rw [List.filter_cons, if_neg (by simp [hpa2]), List.filter_cons,
          if_pos (by simp [hpa2]), hnil, hself, List.nil_append]

theorem pairwise_of_total_true {α : Type} (l : List α) (r : α → α → Prop)
    (h : ∀ a b, r a b) : List.Pairwise r l := by
  induction l with
  | nil => exact List.Pairwise.nil
  | cons a t ih => exact List.Pairwise.cons (fun b _ => h a b) ih

theorem init_sorted_pairwise (entries : List BootEntry) (order : List String) :
    List.Pairwise (keyLe order) (init_sorted_entries entries order) := by
  unfold init_sorted_entries
  split
  · rename_i hord
    have hord2 : order = [] := by simpa using hord
    subst hord2
    exact pairwise_of_total_true entries (keyLe []) (fun a b => Nat.le_refl USIZE_MAX)
  · exact List.sorted_insertionSort (keyLe order) entries

theorem init_filter_stable (entries : List BootEntry) (order : List String) :
    (init_sorted_entries entries order).filter (fun e => !inOrder order e) =
      entries.filter (fun e => !inOrder order e) := by
  unfold init_sorted_entries
  split
  · rfl
  · apply insertionSort_filter_stable
    intro a b hpa hr
    have ha : inOrder order a = false := by simpa using hpa
    have hka := order_key_of_not_inOrder order a ha
    have hr2 : order_key order b < order_key order a := Nat.lt_of_not_le hr
    have hb := inOrder_of_key_lt order b (by omega)
    simp [hb]

/-- C8: startup initialization of the Reorder Model. Concretely, entries
`[{0001,Linux},{0002,Windows}]` with fetched order `["0002","0001"]`
initialize as `[Windows,Linux]` and `current_boot_id = "0002"` (empty string
when the fetched order is empty, in general the order's first id). In
general, the initialized sequence is a permutation of the fetched entries,
sorted by the key "position in the fetched order, `usize::MAX` when absent"
(stable sort, so entries absent from the order keep their relative order),
and — whenever the fetched order is no longer than `usize::MAX`, as any real
vector is — every entry present in the order precedes every absent one. -/
theorem C8_startup_init (entries : List BootEntry) (order : List String) :
    (init_sorted_entries [⟨"0001", "Linux"⟩, ⟨"0002", "Windows"⟩]
        ["0002", "0001"] = [⟨"0002", "Windows"⟩, ⟨"0001", "Linux"⟩] ∧
     current_boot_id_of ["0002", "0001"] = "0002" ∧
     current_boot_id_of [] = "" ∧
     (∀ id rest, current_boot_id_of (id :: rest) = id)) ∧
    (init_sorted_entries entries order).Perm entries ∧
    List.Pairwise (keyLe order) (init_sorted_entries entries order) ∧
    (init_sorted_entries entries order).filter (fun e => !inOrder order e) =
      entries.filter (fun e => !inOrder order e) ∧
    (order.length ≤ USIZE_MAX →
      (init_sorted_entries entries order).filter (fun e => inOrder order e) ++
        (init_sorted_entries entries order).filter (fun e => !inOrder order e) =
      init_sorted_entries entries order) := by
  refine ⟨⟨by decide, rfl, rfl, fun id rest => rfl⟩, ?_, init_sorted_pairwise entries order,
    init_filter_stable entries order, ?_⟩
  · unfold init_sorted_entries
    split
    · exact List.Perm.refl entries
    · exact List.perm_insertionSort (keyLe order) entries
  · intro hle
    apply sorted_filter_partition (keyLe order) (fun e => inOrder order e) ?_
      (init_sorted_entries entries order) (init_sorted_pairwise entries order)
    intro a b hab hpa
    have hka := order_key_of_not_inOrder order a hpa
    by_cases hb : inOrder order b = true
    · have hkb := order_key_of_inOrder order b hb
      unfold keyLe at hab
      omega
    · simpa using hb

/-- C8 witness: the partition property at the concrete scenario (the order
has length 2 ≤ `usize::MAX`). -/
theorem C8_startup_init_witness :
    (init_sorted_entries [⟨"0001", "Linux"⟩, ⟨"0002", "Windows"⟩]
        ["0002", "0001"]).filter
        (fun e => inOrder ["0002", "0001"] e) ++
      (init_sorted_entries [⟨"0001", "Linux"⟩, ⟨"0002", "Windows"⟩]
        ["0002", "0001"]).filter
        (fun e => !inOrder ["0002", "0001"] e) =
    init_sorted_entries [⟨"0001", "Linux"⟩, ⟨"0002", "Windows"⟩]
      ["0002", "0001"] :=
  (C8_startup_init [⟨"0001", "Linux"⟩, ⟨"0002", "Windows"⟩]
    ["0002", "0001"]).2.2.2.2 (by decide)

end EzBoot
